import Mathlib

/-!
# Verification of the AMS/ADS mock-PLC frame codec and command dispatcher

Shallow embedding of `ads-mock-plc/ads_mock_plc.py` (class `MockPLC`).
Byte strings are modelled as `List Nat` with every element below 256;
Python exceptions raised inside `handle_command` (struct.error on a short
slice or an overflowing pack, UnicodeDecodeError on non-ASCII bytes) are
modelled as the `none` reply, while the mutated device state is kept, as
the Python object keeps partial mutations when an exception propagates.
-/

namespace AdsMockPlc

/-- Byte read `data[i]`; out-of-range reads never occur at use sites
(guarded by the 32-byte length check), the default 0 is arbitrary. -/
def get : List Nat → Nat → Nat
  | [], _ => 0
  | b :: _, 0 => b
  | _ :: l, i + 1 => get l i

/-- `struct.unpack('<H', data[i:i+2])[0]` for an in-range two-byte slice. -/
def u16at (l : List Nat) (i : Nat) : Nat := get l i + 256 * get l (i + 1)

/-- `struct.unpack('<I', data[i:i+4])[0]` for an in-range four-byte slice. -/
def u32at (l : List Nat) (i : Nat) : Nat :=
  get l i + 256 * get l (i + 1) + 65536 * get l (i + 2) + 16777216 * get l (i + 3)

/-- `struct.unpack('<H', b)[0]`: requires exactly two bytes, else struct.error. -/
def unpack16 (l : List Nat) : Option Nat :=
  match l with
  | [a, b] => some (a + 256 * b)
  | _ => none

/-- `struct.unpack('<I', b)[0]`: requires exactly four bytes, else struct.error. -/
def unpack32 (l : List Nat) : Option Nat :=
  match l with
  | [a, b, c, d] => some (a + 256 * b + 65536 * c + 16777216 * d)
  | _ => none

/-- `struct.pack('<H', n)` for an in-range value (all use sites pack values
below 2^16, re-packed from 16-bit reads). -/
def pack16 (n : Nat) : List Nat := [n % 256, n / 256 % 256]

/-- The four little-endian bytes of `n % 2^32`. -/
def pack32 (n : Nat) : List Nat :=
  [n % 256, n / 256 % 256, n / 65536 % 256, n / 16777216 % 256]

/-- `struct.pack('<I', n)`: raises struct.error when `n ≥ 2^32`. -/
def pack32c (n : Nat) : Option (List Nat) :=
  if n < 4294967296 then some (pack32 n) else none

/-- ASCII code points of a literal string. -/
def asciiBytes (s : String) : List Nat := s.data.map Char.toNat

/-- `bytes.ljust(w, b'\x00')`. -/
def ljust (l : List Nat) (w : Nat) : List Nat := l ++ List.replicate (w - l.length) 0

/-- Strip trailing NUL bytes, as `.rstrip('\x00')` after an ASCII decode. -/
def rstripNul (l : List Nat) : List Nat := (l.reverse.dropWhile (· == 0)).reverse

/-- Build the string whose code points are the given (sub-128) bytes. -/
def asciiString (l : List Nat) : String := String.mk (l.map Char.ofNat)

/-- `write_data.decode('ascii').rstrip('\x00')`: UnicodeDecodeError (none)
when any byte is ≥ 128, otherwise the decoded text without trailing NULs. -/
def decodeName (l : List Nat) : Option String :=
  if l.all (· < 128) then some (asciiString (rstripNul l)) else none

/-- One AMS envelope: the 32-byte fixed header fields plus the payload,
exactly the fields `handle_command` parses from `data[:32]` and `data[32:]`. -/
structure Envelope where
  target_net_id : List Nat
  target_port : Nat
  source_net_id : List Nat
  source_port : Nat
  command_id : Nat
  state_flags : Nat
  data_len : Nat
  error_code : Nat
  invoke_id : Nat
  payload : List Nat
deriving DecidableEq, Repr

/-- Header parsing of `handle_command` (lines 28–46): a buffer shorter than
32 bytes is refused, otherwise the fixed little-endian layout is read and
the payload is everything after byte 32 (not truncated to `data_len`). -/
def decode (data : List Nat) : Option Envelope :=
  if data.length < 32 then none
  else some
    { target_net_id := data.take 6
      target_port := u16at data 6
      source_net_id := (data.drop 8).take 6
      source_port := u16at data 14
      command_id := u16at data 16
      state_flags := u16at data 18
      data_len := u32at data 20
      error_code := u32at data 24
      invoke_id := u32at data 28
      payload := data.drop 32 }

/-- Header-concatenation layout of the reply construction (lines 145–153),
generalised to an arbitrary envelope: fields in wire order followed by the
payload. -/
def encode (e : Envelope) : List Nat :=
  e.target_net_id ++ pack16 e.target_port ++ e.source_net_id ++ pack16 e.source_port ++
  pack16 e.command_id ++ pack16 e.state_flags ++ pack32 e.data_len ++ pack32 e.error_code ++
  pack32 e.invoke_id ++ e.payload

/-- A well-formed envelope: 6-byte network ids of bytes, 16-bit ports,
command and state flags, 32-bit length/error/invoke fields, and a length
field matching the actual payload length. -/
@[reducible] def Envelope.Valid (e : Envelope) : Prop :=
  e.target_net_id.length = 6 ∧ (∀ b ∈ e.target_net_id, b < 256) ∧
  e.source_net_id.length = 6 ∧ (∀ b ∈ e.source_net_id, b < 256) ∧
  e.target_port < 65536 ∧ e.source_port < 65536 ∧
  e.command_id < 65536 ∧ e.state_flags < 65536 ∧
  e.data_len < 4294967296 ∧ e.error_code < 4294967296 ∧ e.invoke_id < 4294967296 ∧
  e.data_len = e.payload.length

/-- Device state of one `MockPLC` instance: the seeded symbol names, the
handle → symbol-name map, and the allocation counter.  The seed table's
values and type tags are never consulted by `handle_command` (membership
of the name is the only query), so only the names are carried. -/
structure PLC where
  symbols : List String
  handles : List (Nat × String)
  next_handle : Nat
deriving DecidableEq, Repr

/-- `MockPLC.__init__`: three seeded symbols, no handles, counter at 1000. -/
def initPLC : PLC :=
  { symbols := ["MAIN.ConveyorSpeed", "MAIN.Motor.bRun", "MAIN.Sensors.rTemp"]
    handles := []
    next_handle := 1000 }

/-- Python dict update `m[k] = v` on an association list. -/
def dictInsert (m : List (Nat × String)) (k : Nat) (v : String) : List (Nat × String) :=
  m.filter (fun p => p.1 != k) ++ [(k, v)]

/-- `struct.pack('BBH', 3, 1, 4024)`: native little-endian layout with no
padding (the u16 is already 2-aligned), so major, minor then build LE. -/
def versionBytes : List Nat := [3, 1] ++ pack16 4024

/-- `b'TwinCAT 3 PLC'.ljust(16, b'\x00')`. -/
def deviceNameBytes : List Nat := ljust (asciiBytes "TwinCAT 3 PLC") 16

/-- The Get Handle by Name sub-dispatch (index group 0xF003, lines
120–131): decode the written symbol name, then either allocate the next
handle for a known symbol or answer with result 0x710 (symbol not found)
and a zero length, touching no state. -/
def getHandleByName (s : PLC) (write_data : List Nat) : PLC × Option (List Nat) :=
  match decodeName write_data with
  | none => (s, none)
  | some symbol_name =>
    if s.symbols.contains symbol_name then
      let handle := s.next_handle
      let s' : PLC := { s with handles := dictInsert s.handles handle symbol_name
                               next_handle := s.next_handle + 1 }
      match pack32c handle with
      | some hb => (s', some (pack32 0 ++ pack32 4 ++ hb))
      | none => (s', none)
    else
      (s, some (pack32 0x710 ++ pack32 0))

/-- The ADS-command dispatch of `handle_command` (lines 62–142): given the
device state, the command id and the payload, produce the new state and
the reply data, `none` standing for a raised exception (short payload
slice, non-ASCII symbol name, or an overflowing handle pack). -/
def dispatch (s : PLC) (command_id : Nat) (payload : List Nat) : PLC × Option (List Nat) :=
  if command_id = 0x0001 then
    (s, some (pack32 0 ++ versionBytes ++ deviceNameBytes))
  else if command_id = 0x0002 then
    match unpack32 (payload.take 4), unpack32 ((payload.drop 4).take 4),
          unpack32 ((payload.drop 8).take 4) with
    | some _, some _, some read_len =>
        (s, some (pack32 0 ++ pack32 read_len ++ List.replicate read_len 0))
    | _, _, _ => (s, none)
  else if command_id = 0x0003 then
    match unpack32 (payload.take 4), unpack32 ((payload.drop 4).take 4),
          unpack32 ((payload.drop 8).take 4) with
    | some _, some _, some _ => (s, some (pack32 0))
    | _, _, _ => (s, none)
  else if command_id = 0x0004 then
    (s, some (pack32 0 ++ pack16 5 ++ pack16 0))
  else if command_id = 0x0005 then
    match unpack16 (payload.take 2), unpack16 ((payload.drop 2).take 2) with
    | some _, some _ => (s, some (pack32 0))
    | _, _ => (s, none)
  else if command_id = 0x0009 then
    match unpack32 (payload.take 4), unpack32 ((payload.drop 4).take 4),
          unpack32 ((payload.drop 8).take 4), unpack32 ((payload.drop 12).take 4) with
    | some index_group, some _, some read_len, some _ =>
      if index_group = 0xF003 then
        getHandleByName s (payload.drop 16)
      else
        (s, some (pack32 0 ++ pack32 read_len ++ List.replicate read_len 0))
    | _, _, _, _ => (s, none)
  else
    (s, some (pack32 0))

/-- The AMS response header (lines 145–151): source/target endpoints of the
request swapped, command id echoed, response bit set in the state flags,
the actual reply-data length, error code 0, invoke id echoed. -/
def respHeader (env : Envelope) (lenField : List Nat) : List Nat :=
  env.source_net_id ++ pack16 env.source_port ++ env.target_net_id ++ pack16 env.target_port ++
  pack16 env.command_id ++ pack16 (env.state_flags ||| 0x0001) ++ lenField ++
  pack32 0 ++ pack32 env.invoke_id

/-- `MockPLC.handle_command`: a sub-32-byte buffer yields the empty reply
with the state untouched; otherwise the header is parsed, the command
dispatched, and the reply assembled.  `none` models a propagating Python
exception (the state component still records any mutation made before the
raise). -/
def handleCommand (s : PLC) (data : List Nat) : PLC × Option (List Nat) :=
  match decode data with
  | none => (s, some [])
  | some env =>
    match dispatch s env.command_id env.payload with
    | (s', none) => (s', none)
    | (s', some respData) =>
      match pack32c respData.length with
      | none => (s', none)
      | some lenField => (s', some (respHeader env lenField ++ respData))

/-- `MockPLC.handle_client` read loop over the successive chunks read from
one connection: an empty read ends the loop, a raised exception (none
reply) closes the connection, otherwise the reply is written and the loop
continues.  Returns the final device state and the replies written. -/
def handleClient (s : PLC) (chunks : List (List Nat)) : PLC × List (List Nat) :=
  match chunks with
  | [] => (s, [])
  | c :: rest =>
    if c.isEmpty then (s, [])
    else
      match handleCommand s c with
      | (s', some resp) =>
        let (s'', rs) := handleClient s' rest
        (s'', resp :: rs)
      | (s', none) => (s', [])

/-- A list of length six is an explicit six-element list. -/
theorem exists_six (l : List Nat) (h : l.length = 6) :
    ∃ a b c d e f, l = [a, b, c, d, e, f] := by
  rcases l with _ | ⟨a, _ | ⟨b, _ | ⟨c, _ | ⟨d, _ | ⟨e, _ | ⟨f, rest⟩⟩⟩⟩⟩⟩ <;>
    simp only [List.length_cons, List.length_nil] at h <;> try omega
  have hr : rest = [] := List.eq_nil_of_length_eq_zero (by omega)
  exact ⟨a, b, c, d, e, f, by rw [hr]⟩

/-- Reads from a byte string stay below 256. -/
theorem get_lt_256 {data : List Nat} (wf : ∀ b ∈ data, b < 256) (i : Nat) :
    get data i < 256 := by
  induction data generalizing i with
  | nil => cases i <;> exact Nat.zero_lt_succ 255
  | cons b l ih =>
    cases i with
    | zero => exact wf b (List.mem_cons_self b l)
    | succ j => exact ih (fun x hx => wf x (List.mem_cons_of_mem b hx)) j

theorem u16at_lt {data : List Nat} (wf : ∀ b ∈ data, b < 256) (i : Nat) :
    u16at data i < 65536 := by
  have h0 := get_lt_256 wf i
  have h1 := get_lt_256 wf (i + 1)
  unfold u16at; omega

theorem u32at_lt {data : List Nat} (wf : ∀ b ∈ data, b < 256) (i : Nat) :
    u32at data i < 4294967296 := by
  have h0 := get_lt_256 wf i
  have h1 := get_lt_256 wf (i + 1)
  have h2 := get_lt_256 wf (i + 2)
  have h3 := get_lt_256 wf (i + 3)
  unfold u32at; omega

/-- On a buffer of at least 32 bytes, `decode` always succeeds and yields
the fixed-layout fields. -/
theorem decode_eq_of_le (data : List Nat) (h : 32 ≤ data.length) :
    decode data = some
      { target_net_id := data.take 6
        target_port := u16at data 6
        source_net_id := (data.drop 8).take 6
        source_port := u16at data 14
        command_id := u16at data 16
        state_flags := u16at data 18
        data_len := u32at data 20
        error_code := u32at data 24
        invoke_id := u32at data 28
        payload := data.drop 32 } := by
  unfold decode; rw [if_neg (by omega)]

set_option maxHeartbeats 1000000 in
/-- Decoding a buffer assembled in the wire layout recovers each field,
provided every numeric field is in range for its width. -/
theorem decode_assemble (tn sn pay : List Nat) (tp sp cmd st dl ec iv : Nat)
    (htn : tn.length = 6) (hsn : sn.length = 6)
    (htp : tp < 65536) (hsp : sp < 65536) (hcmd : cmd < 65536) (hst : st < 65536)
    (hdl : dl < 4294967296) (hec : ec < 4294967296) (hiv : iv < 4294967296) :
    decode (tn ++ pack16 tp ++ sn ++ pack16 sp ++ pack16 cmd ++ pack16 st ++
            pack32 dl ++ pack32 ec ++ pack32 iv ++ pay) =
      some ⟨tn, tp, sn, sp, cmd, st, dl, ec, iv, pay⟩ := by
  obtain ⟨t0, t1, t2, t3, t4, t5, rfl⟩ := exists_six tn htn
  obtain ⟨s0, s1, s2, s3, s4, s5, rfl⟩ := exists_six sn hsn
  unfold decode
  rw [if_neg (by simp [pack16, pack32])]
  simp only [Option.some.injEq, Envelope.mk.injEq]
  refine ⟨rfl, ?_, rfl, ?_, ?_, ?_, ?_, ?_, ?_, rfl⟩
  · show tp % 256 + 256 * (tp / 256 % 256) = tp
    omega
  · show sp % 256 + 256 * (sp / 256 % 256) = sp
    omega
  · show cmd % 256 + 256 * (cmd / 256 % 256) = cmd
    omega
  · show st % 256 + 256 * (st / 256 % 256) = st
    omega
  · show dl % 256 + 256 * (dl / 256 % 256) + 65536 * (dl / 65536 % 256) +
        16777216 * (dl / 16777216 % 256) = dl
    omega
  · show ec % 256 + 256 * (ec / 256 % 256) + 65536 * (ec / 65536 % 256) +
        16777216 * (ec / 16777216 % 256) = ec
    omega
  · show iv % 256 + 256 * (iv / 256 % 256) + 65536 * (iv / 65536 % 256) +
        16777216 * (iv / 16777216 % 256) = iv
    omega

/-- **C4**: for every valid Envelope `e` (well-formed endpoints of 6-byte
network-id plus 16-bit port, 16-bit command_id and state_flags, 32-bit
error_code and invoke_id, payload whose length matches the length field),
decoding the bytes produced by encoding `e` yields `e` again:
`decode (encode e) = some e`. -/
theorem C4_decode_encode_roundtrip (e : Envelope) (hv : e.Valid) :
    decode (encode e) = some e := by
  obtain ⟨h1, _, h3, _, h5, h6, h7, h8, h9, h10, h11, _⟩ := hv
  exact decode_assemble e.target_net_id e.source_net_id e.payload e.target_port
    e.source_port e.command_id e.state_flags e.data_len e.error_code e.invoke_id
    h1 h3 h5 h6 h7 h8 h9 h10 h11

/-- Length of the reply-target network id slice. -/
theorem length_src_slice {data : List Nat} (h32 : 32 ≤ data.length) :
    ((data.drop 8).take 6).length = 6 := by
  simp [List.length_take, List.length_drop]; omega

/-- Length of the reply-source network id slice. -/
theorem length_tgt_slice {data : List Nat} (h32 : 32 ≤ data.length) :
    (data.take 6).length = 6 := by
  simp [List.length_take]; omega

/-- 16-bit fields stay 16-bit after setting the response bit. -/
theorem or_one_lt {n : Nat} (h : n < 65536) : n ||| 0x0001 < 65536 := by
  have h2 : n ||| 1 < 2 ^ 16 :=
    Nat.or_lt_two_pow (Nat.lt_of_lt_of_le h (by norm_num)) (by norm_num)
  exact Nat.lt_of_lt_of_le h2 (by norm_num)

/-- Every reply `handle_command` produces on a buffer of 32 or more bytes
is the assembled response header (endpoints swapped, response bit set,
actual reply-data length, error 0, invoke echoed) followed by the data
the dispatcher produced. -/
theorem handleCommand_reply_shape (s : PLC) (data : List Nat) (h32 : 32 ≤ data.length)
    (s' : PLC) (reply : List Nat) (hr : handleCommand s data = (s', some reply)) :
    ∃ respData, respData.length < 4294967296 ∧
      dispatch s (u16at data 16) (data.drop 32) = (s', some respData) ∧
      reply = (data.drop 8).take 6 ++ pack16 (u16at data 14) ++ data.take 6 ++
        pack16 (u16at data 6) ++ pack16 (u16at data 16) ++
        pack16 (u16at data 18 ||| 0x0001) ++ pack32 respData.length ++
        pack32 0 ++ pack32 (u32at data 28) ++ respData := by
  have hdec := decode_eq_of_le data h32
  unfold handleCommand at hr
  rw [hdec] at hr
  dsimp only at hr
  rcases hdisp : dispatch s (u16at data 16) (data.drop 32) with ⟨s1, rd⟩
  rw [hdisp] at hr
  rcases rd with _ | respData
  · exact absurd hr (by simp)
  dsimp only at hr
  rcases hp : pack32c respData.length with _ | lenField
  · rw [hp] at hr; exact absurd hr (by simp)
  rw [hp] at hr
  dsimp only at hr
  simp only [pack32c] at hp
  split at hp
  case isFalse => exact absurd hp (by simp)
  case isTrue hlen =>
  have hlf : lenField = pack32 respData.length := by
    injection hp with h; exact h.symm
  have hs1 : s1 = s' := congrArg Prod.fst hr
  have hreply : reply = respHeader
      { target_net_id := data.take 6, target_port := u16at data 6,
        source_net_id := (data.drop 8).take 6, source_port := u16at data 14,
        command_id := u16at data 16, state_flags := u16at data 18,
        data_len := u32at data 20, error_code := u32at data 24,
        invoke_id := u32at data 28, payload := data.drop 32 } lenField ++ respData := by
    have := congrArg Prod.snd hr
    simpa using this.symm
  subst hs1 hlf
  refine ⟨respData, hlen, rfl, ?_⟩
  rw [hreply]
  simp [respHeader, List.append_assoc]

set_option maxHeartbeats 1000000 in
/-- **C1**: for every input buffer of at least 32 bytes on which
`handle_command` returns a reply, the reply envelope's target endpoint
equals the request's source endpoint, the reply's source endpoint equals
the request's target endpoint, the invoke id is copied unchanged, the
reply state flags are the request's with bit 0 set, and the 32-bit
payload-length field of the reply header equals the actual byte length of
the reply payload. -/
theorem C1_reply_envelope (s : PLC) (data : List Nat) (wf : ∀ b ∈ data, b < 256)
    (h32 : 32 ≤ data.length) (s' : PLC) (reply : List Nat)
    (hr : handleCommand s data = (s', some reply)) :
    ∃ req resp, decode data = some req ∧ decode reply = some resp ∧
      resp.target_net_id = req.source_net_id ∧ resp.target_port = req.source_port ∧
      resp.source_net_id = req.target_net_id ∧ resp.source_port = req.target_port ∧
      resp.invoke_id = req.invoke_id ∧ resp.state_flags = req.state_flags ||| 0x0001 ∧
      resp.data_len = resp.payload.length := by
  obtain ⟨respData, hlen, hdisp, hreply⟩ := handleCommand_reply_shape s data h32 s' reply hr
  subst hreply
  have hdecr := decode_assemble ((data.drop 8).take 6) (data.take 6) respData
      (u16at data 14) (u16at data 6) (u16at data 16) (u16at data 18 ||| 0x0001)
      respData.length 0 (u32at data 28)
      (length_src_slice h32) (length_tgt_slice h32)
      (u16at_lt wf 14) (u16at_lt wf 6) (u16at_lt wf 16)
      (or_one_lt (u16at_lt wf 18)) hlen (by norm_num) (u32at_lt wf 28)
  exact ⟨_, ⟨(data.drop 8).take 6, u16at data 14, data.take 6, u16at data 6,
      u16at data 16, u16at data 18 ||| 0x0001, respData.length, 0, u32at data 28,
      respData⟩, decode_eq_of_le data h32, hdecr, rfl, rfl, rfl, rfl, rfl, rfl, rfl⟩

/-- A concrete 32-byte Read State request. -/
def c1data : List Nat :=
  [1, 1, 1, 1, 1, 1, 33, 0, 2, 2, 2, 2, 2, 2, 52, 18,
   4, 0, 4, 0, 0, 0, 0, 0, 0, 0, 0, 0, 7, 0, 0, 0]

/-- The reply `handle_command` produces for `c1data`. -/
def c1reply : List Nat :=
  [2, 2, 2, 2, 2, 2, 52, 18, 1, 1, 1, 1, 1, 1, 33, 0,
   4, 0, 5, 0, 8, 0, 0, 0, 0, 0, 0, 0, 7, 0, 0, 0,
   0, 0, 0, 0, 5, 0, 0, 0]

/-- Witness for C1 at a concrete Read State request. -/
theorem C1_witness : ∃ req resp,
    decode c1data = some req ∧ decode c1reply = some resp ∧
    resp.target_net_id = req.source_net_id ∧ resp.target_port = req.source_port ∧
    resp.source_net_id = req.target_net_id ∧ resp.source_port = req.target_port ∧
    resp.invoke_id = req.invoke_id ∧ resp.state_flags = req.state_flags ||| 0x0001 ∧
    resp.data_len = resp.payload.length :=
  C1_reply_envelope initPLC c1data (by decide) (by decide) initPLC c1reply (by decide)

set_option maxHeartbeats 1000000 in
/-- **C10**: for every input buffer of at least 32 bytes on which
`handle_command` returns a reply, the reply header's command id field
equals the request's command id, and the reply header's 32-bit error-code
field is always 0, for every opcode including unknown ones. -/
theorem C10_command_echo_error_zero (s : PLC) (data : List Nat)
    (wf : ∀ b ∈ data, b < 256) (h32 : 32 ≤ data.length) (s' : PLC) (reply : List Nat)
    (hr : handleCommand s data = (s', some reply)) :
    ∃ req resp, decode data = some req ∧ decode reply = some resp ∧
      resp.command_id = req.command_id ∧ resp.error_code = 0 := by
  obtain ⟨respData, hlen, hdisp, hreply⟩ := handleCommand_reply_shape s data h32 s' reply hr
  subst hreply
  have hdecr := decode_assemble ((data.drop 8).take 6) (data.take 6) respData
      (u16at data 14) (u16at data 6) (u16at data 16) (u16at data 18 ||| 0x0001)
      respData.length 0 (u32at data 28)
      (length_src_slice h32) (length_tgt_slice h32)
      (u16at_lt wf 14) (u16at_lt wf 6) (u16at_lt wf 16)
      (or_one_lt (u16at_lt wf 18)) hlen (by norm_num) (u32at_lt wf 28)
  exact ⟨_, ⟨(data.drop 8).take 6, u16at data 14, data.take 6, u16at data 6,
      u16at data 16, u16at data 18 ||| 0x0001, respData.length, 0, u32at data 28,
      respData⟩, decode_eq_of_le data h32, hdecr, rfl, rfl⟩

/-- A concrete 44-byte Write request (opcode 3, 12-byte payload). -/
def c10data : List Nat :=
  [9, 9, 9, 9, 9, 9, 1, 0, 8, 8, 8, 8, 8, 8, 2, 0,
   3, 0, 0, 0, 12, 0, 0, 0, 0, 0, 0, 0, 5, 0, 0, 0,
   0, 0, 0, 0, 0, 0, 0, 0, 0, 0, 0, 0]

/-- The reply `handle_command` produces for `c10data`. -/
def c10reply : List Nat :=
  [8, 8, 8, 8, 8, 8, 2, 0, 9, 9, 9, 9, 9, 9, 1, 0,
   3, 0, 1, 0, 4, 0, 0, 0, 0, 0, 0, 0, 5, 0, 0, 0,
   0, 0, 0, 0]

/-- Witness for C10 at a concrete Write request. -/
theorem C10_witness : ∃ req resp,
    decode c10data = some req ∧ decode c10reply = some resp ∧
    resp.command_id = req.command_id ∧ resp.error_code = 0 :=
  C10_command_echo_error_zero initPLC c10data (by decide) (by decide) initPLC c10reply
    (by decide)

/-- A concrete valid envelope exercising every field. -/
def sampleEnvelope : Envelope :=
  { target_net_id := [1, 2, 3, 4, 5, 6]
    target_port := 851
    source_net_id := [10, 20, 30, 40, 50, 60]
    source_port := 32905
    command_id := 9
    state_flags := 4
    data_len := 2
    error_code := 0
    invoke_id := 77
    payload := [171, 205] }

/-- Witness for C4 at a concrete valid envelope. -/
theorem C4_witness : decode (encode sampleEnvelope) = some sampleEnvelope :=
  C4_decode_encode_roundtrip sampleEnvelope (by decide)

/-- The response header is exactly 32 bytes for a 4-byte length field. -/
theorem respHeader_length (env : Envelope) (lenField : List Nat)
    (h1 : env.source_net_id.length = 6) (h2 : env.target_net_id.length = 6)
    (h4 : lenField.length = 4) : (respHeader env lenField).length = 32 := by
  simp [respHeader, pack16, pack32, h1, h2, h4]

/-- The payload of an assembled reply is exactly the dispatcher's data. -/
theorem respHeader_append_drop32 (env : Envelope) (lenField respData : List Nat)
    (h1 : env.source_net_id.length = 6) (h2 : env.target_net_id.length = 6)
    (h4 : lenField.length = 4) :
    (respHeader env lenField ++ respData).drop 32 = respData :=
  List.drop_left' (respHeader_length env lenField h1 h2 h4)

/-- `handle_command` unfolded at a successful dispatch. -/
theorem handleCommand_eq_of_dispatch (s : PLC) (data : List Nat) (h32 : 32 ≤ data.length)
    (s' : PLC) (respData : List Nat)
    (hd : dispatch s (u16at data 16) (data.drop 32) = (s', some respData))
    (hlen : respData.length < 4294967296) :
    handleCommand s data = (s', some (respHeader
      { target_net_id := data.take 6
        target_port := u16at data 6
        source_net_id := (data.drop 8).take 6
        source_port := u16at data 14
        command_id := u16at data 16
        state_flags := u16at data 18
        data_len := u32at data 20
        error_code := u32at data 24
        invoke_id := u32at data 28
        payload := data.drop 32 } (pack32 respData.length) ++ respData)) := by
  unfold handleCommand
  rw [decode_eq_of_le data h32]
  dsimp only
  rw [hd]
  dsimp only
  rw [show pack32c respData.length = some (pack32 respData.length) from by
    simp [pack32c, hlen]]

/-- A buffer of 32 or more bytes is not empty. -/
theorem ne_nil_of_32 {data : List Nat} (h32 : 32 ≤ data.length) :
    data.isEmpty = false := by
  cases data with
  | nil => simp at h32
  | cons a l => rfl

/-- **C5**: a buffer shorter than the 32-byte fixed header (for example 10
bytes) decodes to the truncation error, `handle_command` produces the
empty byte string and leaves the device state unchanged, and the
connection handler continues reading, so the subsequent frames on the
same connection are still processed. -/
theorem C5_truncated_frame (s : PLC) (short : List Nat) (rest : List (List Nat))
    (h0 : short ≠ []) (h32 : short.length < 32) :
    decode short = none ∧ handleCommand s short = (s, some []) ∧
    handleClient s (short :: rest) =
      ((handleClient s rest).1, [] :: (handleClient s rest).2) := by
  have hd : decode short = none := by unfold decode; rw [if_pos h32]
  have hc : handleCommand s short = (s, some []) := by unfold handleCommand; rw [hd]
  refine ⟨hd, hc, ?_⟩
  have he : short.isEmpty = false := by
    cases short with
    | nil => exact absurd rfl h0
    | cons a l => rfl
  simp only [handleClient, he, Bool.false_eq_true, if_false, hc]

/-- A truncated 10-byte buffer. -/
def c5short : List Nat := List.replicate 10 0

/-- A well-formed 32-byte Read State frame following the truncated one. -/
def c5next : List Nat :=
  [3, 3, 3, 3, 3, 3, 1, 0, 4, 4, 4, 4, 4, 4, 2, 0,
   4, 0, 0, 0, 0, 0, 0, 0, 0, 0, 0, 0, 9, 0, 0, 0]

/-- Witness for C5 at a concrete 10-byte buffer. -/
theorem C5_witness :
    decode c5short = none ∧ handleCommand initPLC c5short = (initPLC, some []) ∧
    handleClient initPLC (c5short :: [c5next]) =
      ((handleClient initPLC [c5next]).1, [] :: (handleClient initPLC [c5next]).2) :=
  C5_truncated_frame initPLC c5short [c5next] (by decide) (by decide)

/-- A command id matching no known opcode falls through to the fabricated
success reply (lines 140–142). -/
theorem dispatch_unknown (s : PLC) (cmd : Nat) (p : List Nat)
    (h1 : cmd ≠ 0x0001) (h2 : cmd ≠ 0x0002) (h3 : cmd ≠ 0x0003) (h4 : cmd ≠ 0x0004)
    (h5 : cmd ≠ 0x0005) (h9 : cmd ≠ 0x0009) :
    dispatch s cmd p = (s, some (pack32 0)) := by
  unfold dispatch
  rw [if_neg h1, if_neg h2, if_neg h3, if_neg h4, if_neg h5, if_neg h9]

/-- **C9**: a request whose command id matches no known opcode (for
example 0xFFFF) gets a reply whose payload is the 4-byte result code 0,
the device state is unchanged, and the connection remains open so
subsequent requests on the same connection are still processed. -/
theorem C9_unknown_opcode (s : PLC) (data : List Nat) (rest : List (List Nat))
    (h32 : 32 ≤ data.length)
    (h1 : u16at data 16 ≠ 0x0001) (h2 : u16at data 16 ≠ 0x0002)
    (h3 : u16at data 16 ≠ 0x0003) (h4 : u16at data 16 ≠ 0x0004)
    (h5 : u16at data 16 ≠ 0x0005) (h9 : u16at data 16 ≠ 0x0009) :
    ∃ reply, handleCommand s data = (s, some reply) ∧ reply.drop 32 = pack32 0 ∧
      handleClient s (data :: rest) =
        ((handleClient s rest).1, reply :: (handleClient s rest).2) := by
  have hdu := dispatch_unknown s (u16at data 16) (data.drop 32) h1 h2 h3 h4 h5 h9
  have hc := handleCommand_eq_of_dispatch s data h32 s (pack32 0) hdu (by decide)
  refine ⟨_, hc, respHeader_append_drop32 _ _ _ (length_src_slice h32)
    (length_tgt_slice h32) rfl, ?_⟩
  have he := ne_nil_of_32 h32
  simp only [handleClient, he, Bool.false_eq_true, if_false, hc]

/-- A 32-byte frame carrying the unknown opcode 0xFFFF. -/
def c9data : List Nat :=
  [1, 1, 2, 2, 3, 3, 5, 0, 6, 6, 7, 7, 8, 8, 9, 0,
   255, 255, 0, 0, 0, 0, 0, 0, 0, 0, 0, 0, 2, 0, 0, 0]

/-- A well-formed Read State frame sent after the unknown opcode. -/
def c9next : List Nat :=
  [7, 7, 7, 7, 7, 7, 1, 0, 6, 6, 6, 6, 6, 6, 2, 0,
   4, 0, 0, 0, 0, 0, 0, 0, 0, 0, 0, 0, 8, 0, 0, 0]

/-- Witness for C9 at the opcode 0xFFFF. -/
theorem C9_witness : ∃ reply,
    handleCommand initPLC c9data = (initPLC, some reply) ∧
    reply.drop 32 = pack32 0 ∧
    handleClient initPLC (c9data :: [c9next]) =
      ((handleClient initPLC [c9next]).1, reply :: (handleClient initPLC [c9next]).2) :=
  C9_unknown_opcode initPLC c9data [c9next] (by decide) (by decide) (by decide)
    (by decide) (by decide) (by decide) (by decide)

/-- The Device Info branch (lines 63–68). -/
theorem dispatch_device_info (s : PLC) (p : List Nat) :
    dispatch s 0x0001 p = (s, some (pack32 0 ++ versionBytes ++ deviceNameBytes)) := rfl

/-- A 32-byte Device Info request with empty payload. -/
def c6data : List Nat :=
  [1, 2, 3, 4, 5, 6, 10, 0, 6, 5, 4, 3, 2, 1, 20, 0,
   1, 0, 0, 0, 0, 0, 0, 0, 0, 0, 0, 0, 1, 0, 0, 0]

/-- **C6 counterexample**: the Device Info reply payload is NOT "4 zero
bytes, a 3-byte version tuple, then the 16-byte padded name field": the
version encoding `struct.pack('BBH', 3, 1, 4024)` occupies 4 bytes
(major, minor, build u16), so no 3-byte field can sit between the result
code and the name field. -/
theorem C6_counterexample :
    ¬ ∃ v rest : List Nat, v.length = 3 ∧
      (handleCommand initPLC c6data).2.map (fun r => r.drop 32) =
        some (List.replicate 4 0 ++ v ++ deviceNameBytes ++ rest) := by
  rintro ⟨v, rest, hv, he⟩
  rcases v with _ | ⟨x, _ | ⟨y, _ | ⟨z, t⟩⟩⟩ <;>
    simp only [List.length_cons, List.length_nil] at hv <;> try omega
  have ht : t = [] := List.eq_nil_of_length_eq_zero (by omega)
  subst ht
  rw [show (handleCommand initPLC c6data).2.map (fun r => r.drop 32) =
      some [0, 0, 0, 0, 3, 1, 184, 15, 84, 119, 105, 110, 67, 65, 84, 32,
            51, 32, 80, 76, 67, 0, 0, 0] from by decide,
    show deviceNameBytes = [84, 119, 105, 110, 67, 65, 84, 32, 51, 32, 80, 76, 67, 0, 0, 0]
      from by decide] at he
  simp at he

/-- **C6 (amended)**: a Device Info request (command 0x0001, empty
payload) yields a reply whose payload begins with 4 zero bytes (result 0)
followed by the fixed 4-byte version encoding (major 3, minor 1, build
4024 as u16) and then the 16-byte zero-padded device-name field; no state
is touched. -/
theorem C6_device_info (s : PLC) (data : List Nat) (h32 : 32 ≤ data.length)
    (hcmd : u16at data 16 = 0x0001) (_hemp : data.length = 32) :
    ∃ reply, handleCommand s data = (s, some reply) ∧
      reply.drop 32 = List.replicate 4 0 ++ versionBytes ++ deviceNameBytes ∧
      versionBytes.length = 4 ∧
      deviceNameBytes = ljust (asciiBytes "TwinCAT 3 PLC") 16 ∧
      deviceNameBytes.length = 16 := by
  have hdd : dispatch s (u16at data 16) (data.drop 32) =
      (s, some (pack32 0 ++ versionBytes ++ deviceNameBytes)) := by
    rw [hcmd]; exact dispatch_device_info s _
  have hc := handleCommand_eq_of_dispatch s data h32 s _ hdd (by decide)
  refine ⟨_, hc, ?_, rfl, rfl, rfl⟩
  exact respHeader_append_drop32 _ _ _ (length_src_slice h32) (length_tgt_slice h32) rfl

/-- Witness for the amended C6 at a concrete Device Info request. -/
theorem C6_witness : ∃ reply,
    handleCommand initPLC c6data = (initPLC, some reply) ∧
    reply.drop 32 = List.replicate 4 0 ++ versionBytes ++ deviceNameBytes ∧
    versionBytes.length = 4 ∧
    deviceNameBytes = ljust (asciiBytes "TwinCAT 3 PLC") 16 ∧
    deviceNameBytes.length = 16 :=
  C6_device_info initPLC c6data (by decide) (by decide) (by decide)

/-- A 32-byte Write Control frame with an empty payload. -/
def c7data : List Nat :=
  [0, 0, 0, 0, 0, 0, 0, 0, 0, 0, 0, 0, 0, 0, 0, 0,
   5, 0, 0, 0, 0, 0, 0, 0, 0, 0, 0, 0, 0, 0, 0, 0]

/-- **C7 counterexample**: a Write Control request (command 0x0005) with
an empty payload does NOT get a reply: `struct.unpack('<H', payload[:2])`
raises struct.error, `handle_command` raises instead of returning, and
the connection handler closes the connection.  The claim's "regardless of
payload contents or length, no error or exception path is reachable"
fails on this input. -/
theorem C7_counterexample :
    32 ≤ c7data.length ∧ u16at c7data 16 = 0x0005 ∧
    (handleCommand initPLC c7data).2 = none := by decide

/-- A list of at least four elements splits off four explicit heads. -/
theorem exists_cons4 (p : List Nat) (h : 4 ≤ p.length) :
    ∃ a b c d q, p = a :: b :: c :: d :: q := by
  rcases p with _ | ⟨a, _ | ⟨b, _ | ⟨c, _ | ⟨d, q⟩⟩⟩⟩ <;>
    simp only [List.length_cons, List.length_nil] at h <;> try omega
  exact ⟨a, b, c, d, q, rfl⟩

/-- The Write Control branch (lines 101–105) on a payload of at least
4 bytes: both u16 unpacks succeed and the reply data is result code 0. -/
theorem dispatch_write_control (s : PLC) (a b c d : Nat) (q : List Nat) :
    dispatch s 0x0005 (a :: b :: c :: d :: q) = (s, some (pack32 0)) := rfl

/-- **C7 (amended)**: a Write Control request (command 0x0005) whose
payload has at least the 4 bytes of the two u16 state fields is accepted
whatever those bytes are: the reply payload is the 4-byte result code 0
and no device state is persisted.  (With fewer than 4 payload bytes the
struct unpack raises and no reply is produced — see the counterexample.) -/
theorem C7_write_control (s : PLC) (data : List Nat) (h32 : 32 ≤ data.length)
    (hcmd : u16at data 16 = 0x0005) (hp : 4 ≤ (data.drop 32).length) :
    ∃ reply, handleCommand s data = (s, some reply) ∧ reply.drop 32 = pack32 0 := by
  obtain ⟨a, b, c, d, q, hq⟩ := exists_cons4 (data.drop 32) hp
  have hdd : dispatch s (u16at data 16) (data.drop 32) = (s, some (pack32 0)) := by
    rw [hcmd, hq]; exact dispatch_write_control s a b c d q
  have hc := handleCommand_eq_of_dispatch s data h32 s _ hdd (by decide)
  exact ⟨_, hc, respHeader_append_drop32 _ _ _ (length_src_slice h32)
    (length_tgt_slice h32) rfl⟩

/-- A 36-byte Write Control frame carrying the two u16 state fields. -/
def c7ok : List Nat :=
  [1, 1, 1, 1, 1, 1, 0, 0, 2, 2, 2, 2, 2, 2, 0, 0,
   5, 0, 0, 0, 4, 0, 0, 0, 0, 0, 0, 0, 3, 0, 0, 0,
   5, 0, 0, 0]

/-- Witness for the amended C7 at a concrete Write Control request. -/
theorem C7_witness : ∃ reply,
    handleCommand initPLC c7ok = (initPLC, some reply) ∧ reply.drop 32 = pack32 0 :=
  C7_write_control initPLC c7ok (by decide) (by decide) (by decide)

/-- Reading past an explicit 16-byte prefix reaches the write data, and the
Read-Write unpacks all succeed, so the 0xF003 sub-dispatch is entered
whenever the first four payload bytes encode 0xF003. -/
theorem dispatch_get_handle_f003 (s : PLC) (m4 m5 m6 m7 m8 m9 m10 m11 m12 m13 m14 m15 : Nat)
    (wd : List Nat) :
    dispatch s 0x0009 (3 :: 240 :: 0 :: 0 :: m4 :: m5 :: m6 :: m7 :: m8 :: m9 :: m10 ::
      m11 :: m12 :: m13 :: m14 :: m15 :: wd) = getHandleByName s wd := rfl

/-- The symbol-not-found arm of the sub-dispatch.  -/
theorem getHandleByName_not_found (s : PLC) (wd : List Nat) (nm : String)
    (hnm : decodeName wd = some nm) (hcon : s.symbols.contains nm = false) :
    getHandleByName s wd = (s, some (pack32 0x710 ++ pack32 0)) := by
  unfold getHandleByName
  rw [hnm]
  dsimp only
  rw [if_neg (by rw [hcon]; exact Bool.false_ne_true)]

set_option maxHeartbeats 1000000 in
/-- **C3**: a get-handle-by-name request (command 0x0009, index group
0xF003) whose write data names a symbol not present in the symbol table
gets a reply whose payload is the result code 0x710 (symbol not found)
followed by a zero length field, and the device state — handle map and
allocation counter — is unchanged: no handle is allocated. -/
theorem C3_unknown_symbol (s : PLC) (data : List Nat) (nm : String)
    (wf : ∀ b ∈ data, b < 256) (h32 : 32 ≤ data.length)
    (hcmd : u16at data 16 = 0x0009) (hplen : 16 ≤ (data.drop 32).length)
    (hgrp : u32at (data.drop 32) 0 = 0xF003)
    (hnm : decodeName ((data.drop 32).drop 16) = some nm)
    (hcon : s.symbols.contains nm = false) :
    ∃ reply, handleCommand s data = (s, some reply) ∧
      reply.drop 32 = pack32 0x710 ++ pack32 0 := by
  simp only [List.length_drop] at hplen
  obtain ⟨b0, b1, b2, b3, q1, hq1⟩ :=
    exists_cons4 (data.drop 32) (by simp only [List.length_drop]; omega)
  have hq1len : 12 ≤ q1.length := by
    have := congrArg List.length hq1; simp at this; omega
  obtain ⟨m4, m5, m6, m7, q2, hq2⟩ := exists_cons4 q1 (by omega)
  have hq2len : 8 ≤ q2.length := by
    have := congrArg List.length hq2; simp at this; omega
  obtain ⟨m8, m9, m10, m11, q3, hq3⟩ := exists_cons4 q2 (by omega)
  have hq3len : 4 ≤ q3.length := by
    have := congrArg List.length hq3; simp at this; omega
  obtain ⟨m12, m13, m14, m15, q4, hq4⟩ := exists_cons4 q3 (by omega)
  subst hq4
  subst hq3
  subst hq2
  have hb0 : b0 < 256 := wf b0 (List.drop_subset 32 data (by rw [hq1]; simp))
  have hb1 : b1 < 256 := wf b1 (List.drop_subset 32 data (by rw [hq1]; simp))
  have hb2 : b2 < 256 := wf b2 (List.drop_subset 32 data (by rw [hq1]; simp))
  have hb3 : b3 < 256 := wf b3 (List.drop_subset 32 data (by rw [hq1]; simp))
  rw [hq1] at hgrp hnm
  have harith : b0 + 256 * b1 + 65536 * b2 + 16777216 * b3 = 61443 := hgrp
  obtain rfl : b0 = 3 := by omega
  obtain rfl : b1 = 240 := by omega
  obtain rfl : b2 = 0 := by omega
  obtain rfl : b3 = 0 := by omega
  have hnm' : decodeName q4 = some nm := hnm
  have hdd : dispatch s (u16at data 16) (data.drop 32) =
      (s, some (pack32 0x710 ++ pack32 0)) := by
    rw [hcmd, hq1, dispatch_get_handle_f003]
    exact getHandleByName_not_found s q4 nm hnm' hcon
  have hc := handleCommand_eq_of_dispatch s data h32 s _ hdd (by decide)
  exact ⟨_, hc, respHeader_append_drop32 _ _ _ (length_src_slice h32)
    (length_tgt_slice h32) rfl⟩

/-- A 53-byte get-handle request for the unknown symbol name "NOPE". -/
def c3data : List Nat :=
  [1, 1, 1, 1, 1, 1, 1, 0, 2, 2, 2, 2, 2, 2, 2, 0,
   9, 0, 0, 0, 21, 0, 0, 0, 0, 0, 0, 0, 6, 0, 0, 0,
   3, 240, 0, 0, 0, 0, 0, 0, 4, 0, 0, 0, 5, 0, 0, 0,
   78, 79, 80, 69, 0]

/-- Witness for C3 at a concrete unknown-symbol request. -/
theorem C3_witness : ∃ reply,
    handleCommand initPLC c3data = (initPLC, some reply) ∧
    reply.drop 32 = pack32 0x710 ++ pack32 0 :=
  C3_unknown_symbol initPLC c3data "NOPE" (by decide) (by decide) (by decide)
    (by decide) (by decide) (by decide) (by decide)

/-- Reading inside a dropped suffix. -/
theorem get_drop (n : Nat) (data : List Nat) (j : Nat) :
    get (data.drop n) j = get data (n + j) := by
  induction n generalizing data with
  | zero => rw [Nat.zero_add]; rfl
  | succ m ih =>
    cases data with
    | nil => rfl
    | cons a t =>
      show get (t.drop m) j = get (a :: t) (m + 1 + j)
      rw [ih]
      have he : m + 1 + j = (m + j) + 1 := by omega
      rw [he]
      rfl

/-- Reading inside the left part of an append. -/
theorem get_append_left (l r : List Nat) (i : Nat) (h : i < l.length) :
    get (l ++ r) i = get l i := by
  induction l generalizing i with
  | nil => simp at h
  | cons a t ih =>
    cases i with
    | zero => rfl
    | succ j =>
      show get (t ++ r) j = get t j
      exact ih j (by simp only [List.length_cons] at h; omega)

/-- Reading inside a taken prefix. -/
theorem get_take (n : Nat) (data : List Nat) (i : Nat) (h : i < n) :
    get (data.take n) i = get data i := by
  induction data generalizing n i with
  | nil => cases n <;> rfl
  | cons a t ih =>
    cases n with
    | zero => omega
    | succ m =>
      cases i with
      | zero => rfl
      | succ j =>
        show get (t.take m) j = get t j
        exact ih m j (by omega)

/-- Taking within the left part of an append. -/
theorem take_append_le (n : Nat) (l r : List Nat) (h : n ≤ l.length) :
    (l ++ r).take n = l.take n := by
  induction l generalizing n with
  | nil =>
    have h0 : n = 0 := by simpa using h
    subst h0; rfl
  | cons a t ih =>
    cases n with
    | zero => rfl
    | succ m =>
      show a :: (t ++ r).take m = a :: t.take m
      exact congrArg (a :: ·) (ih m (by simp only [List.length_cons] at h; omega))

/-- Dropping within the left part of an append. -/
theorem drop_append_le (n : Nat) (l r : List Nat) (h : n ≤ l.length) :
    (l ++ r).drop n = l.drop n ++ r := by
  induction l generalizing n with
  | nil =>
    have h0 : n = 0 := by simpa using h
    subst h0; rfl
  | cons a t ih =>
    cases n with
    | zero => rfl
    | succ m =>
      show (t ++ r).drop m = t.drop m ++ r
      exact ih m (by simp only [List.length_cons] at h; omega)

/-- Dropping past the left part of an append. -/
theorem drop_append_ge (n : Nat) (l r : List Nat) (h : l.length ≤ n) :
    (l ++ r).drop n = r.drop (n - l.length) := by
  induction l generalizing n with
  | nil => simp
  | cons a t ih =>
    cases n with
    | zero => simp at h
    | succ m =>
      show (t ++ r).drop m = r.drop (m + 1 - (t.length + 1))
      rw [ih m (by simp only [List.length_cons] at h; omega)]
      congr 1
      omega

set_option maxHeartbeats 1000000 in
/-- **C8**: on a buffer of at least 32 bytes the payload handed to the
dispatcher is exactly the bytes after the 32-byte header — no truncation
to the header's declared 32-bit length field — and the declared length
has no effect at all: replacing the four length-field bytes (offsets
20–23) by arbitrary values leaves the result of `handle_command`
unchanged. -/
theorem C8_payload_not_truncated :
    (∀ (s : PLC) (data : List Nat), 32 ≤ data.length →
      handleCommand s data =
        (match dispatch s (u16at data 16) (data.drop 32) with
          | (s', none) => (s', none)
          | (s', some respData) =>
            match pack32c respData.length with
            | none => (s', none)
            | some lenField =>
              (s', some (respHeader
                { target_net_id := data.take 6
                  target_port := u16at data 6
                  source_net_id := (data.drop 8).take 6
                  source_port := u16at data 14
                  command_id := u16at data 16
                  state_flags := u16at data 18
                  data_len := u32at data 20
                  error_code := u32at data 24
                  invoke_id := u32at data 28
                  payload := data.drop 32 } lenField ++ respData)))) ∧
    (∀ (s : PLC) (data : List Nat) (l0 l1 l2 l3 : Nat), 32 ≤ data.length →
      handleCommand s (data.take 20 ++ [l0, l1, l2, l3] ++ data.drop 24) =
        handleCommand s data) := by
  constructor
  · intro s data h32
    unfold handleCommand
    rw [decode_eq_of_le data h32]
  · intro s data l0 l1 l2 l3 h32
    have hlenA : (data.take 20).length = 20 := by
      simp [List.length_take]; omega
    have hlenP : (data.take 20 ++ [l0, l1, l2, l3]).length = 24 := by
      simp [hlenA]
    have hlenD : 32 ≤ (data.take 20 ++ [l0, l1, l2, l3] ++ data.drop 24).length := by
      simp [List.length_append, List.length_take, List.length_drop]; omega
    have hdrop24 : (data.take 20 ++ [l0, l1, l2, l3] ++ data.drop 24).drop 24 =
        data.drop 24 := by
      rw [drop_append_ge 24 _ _ (by rw [hlenP])]
      rw [hlenP]
      simp
    have hr1 : ∀ i, i < 20 →
        get (data.take 20 ++ [l0, l1, l2, l3] ++ data.drop 24) i = get data i := by
      intro i hi
      rw [get_append_left _ _ i (by rw [hlenP]; omega)]
      rw [get_append_left _ _ i (by rw [hlenA]; omega)]
      exact get_take 20 data i hi
    have hr2 : ∀ j, get (data.take 20 ++ [l0, l1, l2, l3] ++ data.drop 24) (24 + j) =
        get data (24 + j) := by
      intro j
      rw [← get_drop 24 _ j, ← get_drop 24 data j, hdrop24]
    have h6 : u16at (data.take 20 ++ [l0, l1, l2, l3] ++ data.drop 24) 6 =
        u16at data 6 := by
      unfold u16at; rw [hr1 6 (by omega), hr1 7 (by omega)]
    have h14 : u16at (data.take 20 ++ [l0, l1, l2, l3] ++ data.drop 24) 14 =
        u16at data 14 := by
      unfold u16at; rw [hr1 14 (by omega), hr1 15 (by omega)]
    have h16 : u16at (data.take 20 ++ [l0, l1, l2, l3] ++ data.drop 24) 16 =
        u16at data 16 := by
      unfold u16at; rw [hr1 16 (by omega), hr1 17 (by omega)]
    have h18 : u16at (data.take 20 ++ [l0, l1, l2, l3] ++ data.drop 24) 18 =
        u16at data 18 := by
      unfold u16at; rw [hr1 18 (by omega), hr1 19 (by omega)]
    have h28 : u32at (data.take 20 ++ [l0, l1, l2, l3] ++ data.drop 24) 28 =
        u32at data 28 := by
      have e0 : get (data.take 20 ++ [l0, l1, l2, l3] ++ data.drop 24) 28 =
          get data 28 := hr2 4
      have e1 : get (data.take 20 ++ [l0, l1, l2, l3] ++ data.drop 24) 29 =
          get data 29 := hr2 5
      have e2 : get (data.take 20 ++ [l0, l1, l2, l3] ++ data.drop 24) 30 =
          get data 30 := hr2 6
      have e3 : get (data.take 20 ++ [l0, l1, l2, l3] ++ data.drop 24) 31 =
          get data 31 := hr2 7
      unfold u32at; rw [e0, e1, e2, e3]
    have htake6 : (data.take 20 ++ [l0, l1, l2, l3] ++ data.drop 24).take 6 =
        data.take 6 := by
      rw [take_append_le 6 _ _ (by rw [hlenP]; omega)]
      rw [take_append_le 6 _ _ (by rw [hlenA]; omega)]
      simp [List.take_take]
    have he812 : List.take 12 (List.drop 8 data) = List.drop 8 (List.take 20 data) :=
      List.take_drop 8 12 data
    have hsrc : ((data.take 20 ++ [l0, l1, l2, l3] ++ data.drop 24).drop 8).take 6 =
        (data.drop 8).take 6 := by
      rw [drop_append_le 8 _ _ (by rw [hlenP]; omega)]
      rw [take_append_le 6 _ _ (by simp [List.length_drop, hlenP])]
      rw [drop_append_le 8 _ _ (by rw [hlenA]; omega)]
      rw [take_append_le 6 _ _ (by simp [List.length_drop, hlenA])]
      rw [← he812]
      simp [List.take_take]
    have hpay : (data.take 20 ++ [l0, l1, l2, l3] ++ data.drop 24).drop 32 =
        data.drop 32 := by
      rw [drop_append_ge 32 _ _ (by rw [hlenP]; omega)]
      rw [hlenP]
      simp
    unfold handleCommand
    rw [decode_eq_of_le _ hlenD, decode_eq_of_le data h32]
    unfold respHeader
    dsimp only
    rw [h6, h14, h16, h18, h28, htake6, hsrc, hpay]

/-- A 44-byte Read request used to instantiate C8. -/
def c8data : List Nat :=
  [1, 0, 0, 0, 0, 1, 1, 0, 2, 0, 0, 0, 0, 2, 2, 0,
   2, 0, 0, 0, 12, 0, 0, 0, 0, 0, 0, 0, 4, 0, 0, 0,
   5, 0, 0, 240, 0, 0, 0, 0, 3, 0, 0, 0]

/-- Witness for C8: mangling the declared-length bytes of a concrete Read
request leaves the reply untouched. -/
theorem C8_witness :
    handleCommand initPLC (c8data.take 20 ++ [9, 9, 9, 9] ++ c8data.drop 24) =
      handleCommand initPLC c8data :=
  C8_payload_not_truncated.2 initPLC c8data 9 9 9 9 (by decide)

/-- Inversion of a successful decode. -/
theorem decode_inv {data : List Nat} {env : Envelope} (h : decode data = some env) :
    32 ≤ data.length ∧ env =
      { target_net_id := data.take 6
        target_port := u16at data 6
        source_net_id := (data.drop 8).take 6
        source_port := u16at data 14
        command_id := u16at data 16
        state_flags := u16at data 18
        data_len := u32at data 20
        error_code := u32at data 24
        invoke_id := u32at data 28
        payload := data.drop 32 } := by
  unfold decode at h
  split at h
  · exact absurd h (by simp)
  · next hlen =>
    refine ⟨by omega, ?_⟩
    injection h with h'
    exact h'.symm

/-- Case analysis of the sub-dispatch: either the state is untouched, or
exactly one handle is allocated; an allocation yields the 12-byte grant
reply when the counter still fits 32 bits and no reply otherwise. -/
theorem getHandleByName_cases (s : PLC) (wd : List Nat) :
    (getHandleByName s wd).1 = s ∨
    ((getHandleByName s wd).1.next_handle = s.next_handle + 1 ∧
      (∀ r, (getHandleByName s wd).2 = some r →
        s.next_handle < 4294967296 ∧ r = pack32 0 ++ pack32 4 ++ pack32 s.next_handle) ∧
      (s.next_handle < 4294967296 →
        (getHandleByName s wd).2 = some (pack32 0 ++ pack32 4 ++ pack32 s.next_handle))) := by
  unfold getHandleByName
  rcases decodeName wd with _ | nm
  · exact Or.inl rfl
  · dsimp only
    by_cases hc : s.symbols.contains nm = true
    · rw [if_pos hc]
      right
      dsimp only
      by_cases hlt : s.next_handle < 4294967296
      · rw [show pack32c s.next_handle = some (pack32 s.next_handle) from by
            simp [pack32c, hlt]]
        exact ⟨rfl, fun r hr => ⟨hlt, by have h' := hr; simp at h'; exact h'.symm⟩,
          fun _ => rfl⟩
      · rw [show pack32c s.next_handle = none from by simp [pack32c, hlt]]
        exact ⟨rfl, fun r hr => absurd hr (by simp), fun hl => absurd hl hlt⟩
    · rw [if_neg hc]
      exact Or.inl rfl

/-- Case analysis of the dispatcher: every opcode except a 0xF003
Read-Write leaves the state untouched; the 0xF003 Read-Write is exactly
the sub-dispatch on the write data. -/
theorem dispatch_state_cases (s : PLC) (cmd : Nat) (p : List Nat) :
    (dispatch s cmd p).1 = s ∨ dispatch s cmd p = getHandleByName s (p.drop 16) := by
  unfold dispatch
  repeat' first
    | exact Or.inl rfl
    | exact Or.inr rfl
    | split

set_option maxHeartbeats 1000000 in
/-- Master case analysis of one `handle_command` call: either the device
state is untouched, or exactly one handle is allocated; in the latter
case any reply carries the grant payload (result 0, length 4, the old
counter value), and a reply is guaranteed when the counter fits 32 bits. -/
theorem handleCommand_alloc_cases (s : PLC) (data : List Nat) :
    ((handleCommand s data).1 = s) ∨
    ((handleCommand s data).1.next_handle = s.next_handle + 1 ∧
     (∀ reply, (handleCommand s data).2 = some reply →
        s.next_handle < 4294967296 ∧
        reply.drop 32 = pack32 0 ++ pack32 4 ++ pack32 s.next_handle) ∧
     (s.next_handle < 4294967296 →
        ∃ reply, (handleCommand s data).2 = some reply)) := by
  rcases hdec : decode data with _ | env
  · left
    unfold handleCommand
    rw [hdec]
  obtain ⟨h32, henv⟩ := decode_inv hdec
  have hcmd : handleCommand s data =
      (match dispatch s env.command_id env.payload with
        | (s', none) => (s', none)
        | (s', some respData) =>
          match pack32c respData.length with
          | none => (s', none)
          | some lenField => (s', some (respHeader env lenField ++ respData))) := by
    unfold handleCommand
    rw [hdec]
  rcases dispatch_state_cases s env.command_id env.payload with hst | hsub
  · left
    rw [hcmd]
    rcases hd : dispatch s env.command_id env.payload with ⟨s1, rd⟩
    rw [hd] at hst
    rcases rd with _ | respData
    · exact hst
    · dsimp only
      rcases pack32c respData.length with _ | lenField
      · exact hst
      · exact hst
  rcases getHandleByName_cases s (env.payload.drop 16) with hst | ⟨hnext, hshape, hsome⟩
  · left
    rw [hcmd, hsub]
    rcases hgh : getHandleByName s (env.payload.drop 16) with ⟨s1, rd⟩
    rw [hgh] at hst
    rcases rd with _ | respData
    · exact hst
    · dsimp only
      rcases pack32c respData.length with _ | lenField
      · exact hst
      · exact hst
  right
  rw [hcmd, hsub]
  have hsrc6 : env.source_net_id.length = 6 := by rw [henv]; exact length_src_slice h32
  have htgt6 : env.target_net_id.length = 6 := by rw [henv]; exact length_tgt_slice h32
  rcases hgh : getHandleByName s (env.payload.drop 16) with ⟨s1, rd⟩
  rw [hgh] at hnext hshape hsome
  rcases rd with _ | respData
  · dsimp only
    refine ⟨hnext, fun reply hr => absurd hr (by simp), fun hlt => absurd (hsome hlt) (by simp)⟩
  · dsimp only
    obtain ⟨hlt, hrd⟩ := hshape respData rfl
    subst hrd
    rw [show pack32c (pack32 0 ++ pack32 4 ++ pack32 s.next_handle).length =
        some (pack32 (pack32 0 ++ pack32 4 ++ pack32 s.next_handle).length) from by
      simp [pack32c, pack32]]
    dsimp only
    refine ⟨hnext, fun reply hr => ?_, fun _ => ⟨_, rfl⟩⟩
    refine ⟨hlt, ?_⟩
    have hre : reply = respHeader env (pack32 (pack32 0 ++ pack32 4 ++
        pack32 s.next_handle).length) ++ (pack32 0 ++ pack32 4 ++ pack32 s.next_handle) := by
      have := hr
      simp at this
      exact this.symm
    rw [hre]
    exact respHeader_append_drop32 _ _ _ hsrc6 htgt6 rfl

/-- The allocation counter never decreases across any call. -/
theorem next_handle_mono (s : PLC) (data : List Nat) :
    s.next_handle ≤ (handleCommand s data).1.next_handle := by
  rcases handleCommand_alloc_cases s data with h | ⟨h, _, _⟩
  · rw [h]
  · omega

/-- The handle granted by one call, read off the state change: `some h`
exactly when the call produced a reply and allocated a handle, `h` being
the allocated id (the old counter value, which the reply carries). -/
def grantedHandle (s : PLC) (data : List Nat) : Option Nat :=
  match handleCommand s data with
  | (_, none) => none
  | (s', some _) =>
    if s.next_handle < s'.next_handle then some s.next_handle else none

/-- The handles granted across a sequence of calls on one session. -/
def grantedSeq (s : PLC) (chunks : List (List Nat)) : List Nat :=
  match chunks with
  | [] => []
  | c :: rest => (grantedHandle s c).toList ++ grantedSeq (handleCommand s c).1 rest

/-- Shifting a 32-bit read over a dropped prefix. -/
theorem u32at_drop (n : Nat) (l : List Nat) (i : Nat) :
    u32at (l.drop n) i = u32at l (n + i) := by
  unfold u32at
  rw [get_drop n l i, get_drop n l (i + 1), get_drop n l (i + 2), get_drop n l (i + 3)]
  have e1 : n + (i + 1) = n + i + 1 := by omega
  have e2 : n + (i + 2) = n + i + 2 := by omega
  have e3 : n + (i + 3) = n + i + 3 := by omega
  rw [e1, e2, e3]

/-- A granted handle is the old counter value; the counter moves to the
successor; and the reply's payload carries result 0 and the handle. -/
theorem granted_some (s : PLC) (data : List Nat) (h : Nat)
    (hg : grantedHandle s data = some h) :
    h = s.next_handle ∧ (handleCommand s data).1.next_handle = s.next_handle + 1 ∧
    ∃ s' reply, handleCommand s data = (s', some reply) ∧
      u32at reply 32 = 0 ∧ u32at reply 40 = h := by
  unfold grantedHandle at hg
  rcases hc : handleCommand s data with ⟨s', rd⟩
  rw [hc] at hg
  rcases rd with _ | reply
  · exact absurd hg (by simp)
  dsimp only at hg
  split at hg
  case isFalse => exact absurd hg (by simp)
  case isTrue hlt =>
  have hh : h = s.next_handle := by
    have h' := hg
    simp at h'
    exact h'.symm
  subst hh
  rcases handleCommand_alloc_cases s data with hs | ⟨hnext, hshape, _⟩
  · exfalso
    rw [hc] at hs
    have : s' = s := hs
    rw [this] at hlt
    omega
  · obtain ⟨hlt32, hdrop⟩ := hshape reply (by rw [hc])
    rw [hc] at hnext
    refine ⟨rfl, hnext, s', reply, rfl, ?_, ?_⟩
    · have e1 : u32at reply 32 = u32at (reply.drop 32) 0 := (u32at_drop 32 reply 0).symm
      rw [e1, hdrop]
      rfl
    · have e2 : u32at reply 40 = u32at (reply.drop 32) 8 := (u32at_drop 32 reply 8).symm
      rw [e2, hdrop]
      show s.next_handle % 256 + 256 * (s.next_handle / 256 % 256) +
        65536 * (s.next_handle / 65536 % 256) +
        16777216 * (s.next_handle / 16777216 % 256) = s.next_handle
      omega

/-- While the counter fits 32 bits, a call granting nothing leaves the
counter unchanged (an allocation then always produces a reply, which
`grantedHandle` would report). -/
theorem granted_none_next (s : PLC) (data : List Nat)
    (hg : grantedHandle s data = none) (hlt : s.next_handle < 4294967296) :
    (handleCommand s data).1.next_handle = s.next_handle := by
  rcases handleCommand_alloc_cases s data with hs | ⟨hnext, _, hsome⟩
  · rw [hs]
  · exfalso
    obtain ⟨reply, hr⟩ := hsome hlt
    unfold grantedHandle at hg
    rcases hc : handleCommand s data with ⟨s', rd⟩
    rw [hc] at hg hr hnext
    rcases rd with _ | r
    · exact absurd hr (by simp)
    dsimp only at hg hnext
    rw [if_pos (by omega)] at hg
    exact absurd hg (by simp)

/-- Granted handles are bounded below by the counter and strictly
increasing. -/
theorem grantedSeq_bounds (s : PLC) (chunks : List (List Nat)) :
    (∀ h ∈ grantedSeq s chunks, s.next_handle ≤ h) ∧
    (grantedSeq s chunks).Pairwise (· < ·) := by
  induction chunks generalizing s with
  | nil => constructor <;> simp [grantedSeq]
  | cons c rest ih =>
    obtain ⟨ih1, ih2⟩ := ih (handleCommand s c).1
    rcases hg : grantedHandle s c with _ | g
    · constructor
      · intro x hx
        simp only [grantedSeq, hg, Option.toList_none, List.nil_append] at hx
        exact le_trans (next_handle_mono s c) (ih1 x hx)
      · simp only [grantedSeq, hg, Option.toList_none, List.nil_append]
        exact ih2
    · obtain ⟨hge, hstep, _⟩ := granted_some s c g hg
      subst hge
      constructor
      · intro x hx
        simp only [grantedSeq, hg, Option.toList_some, List.singleton_append,
          List.mem_cons] at hx
        rcases hx with rfl | hx
        · exact le_refl _
        · have := ih1 x hx
          omega
      · simp only [grantedSeq, hg, Option.toList_some, List.singleton_append]
        rw [List.pairwise_cons]
        constructor
        · intro x hx
          have := ih1 x hx
          omega
        · exact ih2

/-- On a session whose counter sits at the base value, the first granted
handle is exactly the base value. -/
theorem grantedSeq_head_fresh (chunks : List (List Nat)) :
    ∀ (s : PLC), s.next_handle = 1000 →
      ∀ h t, grantedSeq s chunks = h :: t → h = 1000 := by
  induction chunks with
  | nil =>
    intro s hs h t hh
    simp [grantedSeq] at hh
  | cons c rest ih =>
    intro s hs h t hh
    rcases hg : grantedHandle s c with _ | g
    · simp only [grantedSeq, hg, Option.toList_none, List.nil_append] at hh
      have hnext : (handleCommand s c).1.next_handle = 1000 := by
        rw [← hs]
        exact granted_none_next s c hg (by omega)
      exact ih (handleCommand s c).1 hnext h t hh
    · simp only [grantedSeq, hg, Option.toList_some, List.singleton_append] at hh
      obtain ⟨hge, _, _⟩ := granted_some s c g hg
      have hgh : g = h := by injection hh with h1 h2
      omega

/-- **C2**: across any sequence of `handle_command` calls on one session,
the allocation counter never decreases; a granted handle is the old
counter value and is the id carried in the grant reply (result code 0 at
payload offset 0, handle at offset 8); on a fresh session the granted
ids are strictly increasing — hence never repeated — and the first one
is the fixed base value 1000. -/
theorem C2_handle_monotonic :
    (∀ (s : PLC) (data : List Nat),
        s.next_handle ≤ (handleCommand s data).1.next_handle) ∧
    (∀ (s : PLC) (data : List Nat) (h : Nat), grantedHandle s data = some h →
        h = s.next_handle ∧ (handleCommand s data).1.next_handle = h + 1 ∧
        ∃ s' reply, handleCommand s data = (s', some reply) ∧
          u32at reply 32 = 0 ∧ u32at reply 40 = h) ∧
    (∀ chunks : List (List Nat), (grantedSeq initPLC chunks).Pairwise (· < ·)) ∧
    (∀ (chunks : List (List Nat)) (h : Nat) (t : List Nat),
        grantedSeq initPLC chunks = h :: t → h = 1000) := by
  refine ⟨next_handle_mono, ?_, fun chunks => (grantedSeq_bounds initPLC chunks).2,
    fun chunks h t => grantedSeq_head_fresh chunks initPLC rfl h t⟩
  intro s data h hg
  obtain ⟨hge, hstep, hex⟩ := granted_some s data h hg
  refine ⟨hge, ?_, hex⟩
  rw [hge]
  exact hstep

/-- A 64-byte get-handle request for the seeded symbol MAIN.Motor.bRun. -/
def c2req : List Nat :=
  [1, 1, 1, 1, 1, 1, 1, 0, 2, 2, 2, 2, 2, 2, 2, 0,
   9, 0, 0, 0, 32, 0, 0, 0, 0, 0, 0, 0, 7, 0, 0, 0,
   3, 240, 0, 0, 0, 0, 0, 0, 4, 0, 0, 0, 16, 0, 0, 0,
   77, 65, 73, 78, 46, 77, 111, 116, 111, 114, 46, 98, 82, 117, 110, 0]

/-- Witness for C2 at a concrete granting request on a fresh session. -/
theorem C2_witness :
    initPLC.next_handle ≤ (handleCommand initPLC c2req).1.next_handle ∧
    (1000 = initPLC.next_handle ∧
      (handleCommand initPLC c2req).1.next_handle = 1000 + 1 ∧
      ∃ s' reply, handleCommand initPLC c2req = (s', some reply) ∧
        u32at reply 32 = 0 ∧ u32at reply 40 = 1000) ∧
    (grantedSeq initPLC [c2req]).Pairwise (· < ·) ∧
    (1000 : Nat) = 1000 :=
  ⟨C2_handle_monotonic.1 initPLC c2req,
   C2_handle_monotonic.2.1 initPLC c2req 1000 (by decide),
   C2_handle_monotonic.2.2.1 [c2req],
   C2_handle_monotonic.2.2.2 [c2req] 1000 [] (by decide)⟩

end AdsMockPlc
